import Mathlib

/-!
Verification of the Redfin sold-land acquisition-and-aggregation pipeline.

The definitions below are shallow embeddings of the JavaScript sources:
  * `playwright/downloadData.js` (query partitioner, batch download loop)
  * `playwright/utils.js` (ledger: `logDownload`, `isAlreadyDownloaded`,
    `createSafeFilename`)
  * `playwright/simpleDownload.js` (capture strategies)
  * `processData.js` (`processRecord`, `categorizeLotSize`,
    `generateMarketMatrix`, `calculateMedian`, `calculatePercentile`)

JavaScript numbers are modelled as rationals (`ℚ`); this is exact on all the
inputs the theorems evaluate.  `NaN` outcomes of `parseFloat` are modelled by
`Option`.  JavaScript's `Array.prototype.sort` with the numeric comparator
`(a, b) => a - b` sorts ascending; on a list of rationals the ascending sort
is determined by "sorted and a permutation of the input", so it is embedded
as insertion sort.
-/

namespace RedfinPipeline

/-! ## CSV ingestion (`processData.js`) -/

/-- Digits of a decimal numeral, folded to a natural number. -/
def digitsVal (l : List Char) : Nat :=
  l.foldl (fun a c => a * 10 + (c.toNat - 48)) 0

/-- Model of JavaScript `parseFloat` restricted to plain decimal numerals
(optionally with one decimal point), the only shapes occurring in the
numeric CSV columns.  `none` models `NaN`. -/
def jsParseFloat (s : String) : Option ℚ :=
  match s.toList.splitOn '.' with
  | [w] =>
      if w ≠ [] ∧ w.all Char.isDigit then some (digitsVal w : ℚ) else none
  | [w, f] =>
      if (w ≠ [] ∨ f ≠ []) ∧ w.all Char.isDigit ∧ f.all Char.isDigit then
        some ((digitsVal w : ℚ) + (digitsVal f : ℚ) / 10 ^ f.length)
      else none
  | _ => none

/-- A raw CSV row: header-name / cell-value pairs. -/
def RawRow := List (String × String)

/-- JavaScript `record[key]`: `none` models `undefined`. -/
def getField (r : RawRow) (k : String) : Option String :=
  r.lookup k

/-- JavaScript `a || b || ...` over string fields: the first field that is
present and non-empty (`undefined` and `""` are falsy). -/
def firstTruthy : List (Option String) → Option String
  | [] => none
  | none :: rest => firstTruthy rest
  | some s :: rest => if s = "" then firstTruthy rest else some s

/-- `parseFloat(record[k1] || record[k2] || 0)`: a missing/empty field falls
through to the numeric literal `0`, which parses to `0`. -/
def numField (r : RawRow) (k₁ k₂ : String) : Option ℚ :=
  match firstTruthy [getField r k₁, getField r k₂] with
  | some s => jsParseFloat s
  | none => some 0

/-- `record[k1] || record[k2] || ''`. -/
def strField (r : RawRow) (k₁ k₂ : String) : String :=
  (firstTruthy [getField r k₁, getField r k₂]).getD ""

/-- JavaScript truthiness of the parsed number: `NaN` and `0` are falsy. -/
def numTruthy : Option ℚ → Bool
  | none => false
  | some v => v ≠ 0

/-- `Number.prototype.toFixed(d)`, as a rational rounded to `d` decimals. -/
def toFixedQ (d : Nat) (q : ℚ) : ℚ :=
  (⌊q * 10 ^ d + 1 / 2⌋ : ℚ) / 10 ^ d

/-- `categorizeLotSize` from `processData.js`, verbatim. -/
def categorizeLotSize (acres : ℚ) : String :=
  if acres ≤ 0.25 then "0-0.25"
  else if acres ≤ 0.5 then "0.25-0.5"
  else if acres ≤ 1 then "0.5-1"
  else if acres ≤ 3 then "1-3"
  else if acres ≤ 5 then "3-5"
  else "5+"

/-- A normalized sold-listing record (the object `processRecord` returns). -/
structure SoldRecord where
  address : String
  zipCode : String
  price : ℚ
  lotSizeSqft : ℚ
  acres : ℚ
  pricePerAcre : ℚ
  sizeCategory : String
  saleDate : String
  deriving Repr, DecidableEq

/-- `processRecord` from `processData.js`: extracts the aliased fields,
drops the row (`null`, modelled `none`) when price, lot size or zip is
missing/zero/unparseable, otherwise computes acres and price per acre. -/
def processRecord (r : RawRow) : Option SoldRecord :=
  let price := numField r "PRICE" "Sale Price"
  let lotSizeSqft := numField r "LOT SIZE" "Lot Size"
  let zipCode := strField r "ZIP OR POSTAL CODE" "Zip Code"
  let address := strField r "ADDRESS" "Address"
  let saleDate := strField r "SOLD DATE" "Sale Date"
  if numTruthy price ∧ numTruthy lotSizeSqft ∧ zipCode ≠ "" then
    match price, lotSizeSqft with
    | some p, some l =>
        let acres := l / 43560
        let pricePerAcre := p / acres
        some
          { address := address
            zipCode := zipCode
            price := p
            lotSizeSqft := l
            acres := toFixedQ 4 acres
            pricePerAcre := toFixedQ 2 pricePerAcre
            sizeCategory := categorizeLotSize acres
            saleDate := saleDate }
    | _, _ => none
  else none

/-- The row-processing part of `processCsvFile`: rows for which
`processRecord` returns `null` are not pushed. -/
def processRows (rows : List RawRow) : List SoldRecord :=
  rows.filterMap processRecord

/-! ## Aggregation (`processData.js`) -/

/-- `calculateMedian` from `processData.js` (0 is the out-of-range default
of the embedding; all uses guard `count > 0`). -/
def calculateMedian (sortedArray : List ℚ) : ℚ :=
  let mid := sortedArray.length / 2
  if sortedArray.length % 2 ≠ 0 then sortedArray.getD mid 0
  else (sortedArray.getD (mid - 1) 0 + sortedArray.getD mid 0) / 2

/-- `calculatePercentile` from `processData.js`: linear interpolation at
index `(p/100)·(n−1)`. -/
def calculatePercentile (sortedArray : List ℚ) (percentile : ℚ) : ℚ :=
  let index := (percentile / 100) * ((sortedArray.length : ℚ) - 1)
  let lower := (⌊index⌋).toNat
  let upper := (⌈index⌉).toNat
  if lower = upper then sortedArray.getD lower 0
  else
    sortedArray.getD lower 0 +
      (sortedArray.getD upper 0 - sortedArray.getD lower 0) * (index - (lower : ℚ))

/-- Ascending numeric sort, the behaviour of `prices.sort((a, b) => a - b)`. -/
def sortAsc (l : List ℚ) : List ℚ :=
  List.insertionSort (· ≤ ·) l

/-- Does any record carry (zip, sizeCategory)?  Mirrors the grouping pass of
`generateMarketMatrix`: a key exists in `matrix[zip][cat]` exactly when some
record pushed a price into it. -/
def recordMatches (zip cat : String) (r : SoldRecord) : Bool :=
  r.zipCode == zip && r.sizeCategory == cat

/-- The list `matrix[zip][cat]` built by the grouping pass of
`generateMarketMatrix` (price-per-acre values of matching records, in
encounter order). -/
def bucketPrices (records : List SoldRecord) (zip cat : String) : List ℚ :=
  (records.filter (recordMatches zip cat)).map (·.pricePerAcre)

/-- One statistics cell of the market matrix. -/
structure BucketStats where
  count : Nat
  median : ℚ
  mean : ℚ
  min : ℚ
  max : ℚ
  q1 : ℚ
  q3 : ℚ
  deriving Repr, DecidableEq

/-- The statistics pass of `generateMarketMatrix` for one (zip, sizeCategory)
cell: `none` when no record carries the pair (the key is absent from the
matrix), otherwise the stats over the ascending-sorted price list. -/
def marketStats (records : List SoldRecord) (zip cat : String) :
    Option BucketStats :=
  let prices := sortAsc (bucketPrices records zip cat)
  let count := prices.length
  if count = 0 then none
  else
    some
      { count := count
        median := calculateMedian prices
        mean := toFixedQ 2 (prices.sum / (count : ℚ))
        min := prices.getD 0 0
        max := prices.getD (count - 1) 0
        q1 := calculatePercentile prices 25
        q3 := calculatePercentile prices 75 }

/-! ## Query partitioner (`downloadData.js`) -/

/-- A price range; `max = none` models `max: null` (unbounded). -/
structure PriceRange where
  label : String
  min : ℚ
  max : Option ℚ
  deriving Repr, DecidableEq

/-- A size range; `maxPrice = none` models an absent `maxPrice`. -/
structure SizeRange where
  label : String
  min : ℚ
  max : ℚ
  maxPrice : Option ℚ
  deriving Repr, DecidableEq

/-- JavaScript truthiness of `sizeRange.maxPrice` (absent, `null` and `0`
are falsy). -/
def capTruthy : Option ℚ → Bool
  | none => false
  | some v => v ≠ 0

/-- `getPriceRangesForSize` from `downloadData.js`, verbatim:
`priceRanges.filter(price => price.max === null || price.max <= sizeRange.maxPrice)`
when `sizeRange.maxPrice` is truthy, else the full list. -/
def getPriceRangesForSize (sizeRange : SizeRange) (priceRanges : List PriceRange) :
    List PriceRange :=
  match sizeRange.maxPrice with
  | some cap =>
      if cap ≠ 0 then
        priceRanges.filter fun price =>
          match price.max with
          | none => true
          | some m => m ≤ cap
      else priceRanges
  | none => priceRanges

/-! ## Ledger (`utils.js`) -/

/-- `createSafeFilename`'s character sanitizer: `replace(/[^a-zA-Z0-9.-]/g, '_')`. -/
def safeChar (c : Char) : Char :=
  if c.isAlphanum ∨ c = '.' ∨ c = '-' then c else '_'

/-- `label.replace(/[^a-zA-Z0-9.-]/g, '_')`. -/
def sanitizeLabel (s : String) : String :=
  String.mk (s.toList.map safeChar)

/-- `createSafeFilename(zip, sizeRange, priceRange, ts)` from `utils.js`
(`ts` is the stringified timestamp). -/
def createSafeFilename (zip : String) (sizeRange : SizeRange)
    (priceRange : PriceRange) (ts : String) : String :=
  zip ++ "_" ++ sanitizeLabel sizeRange.label ++ "_" ++
    sanitizeLabel priceRange.label ++ "_" ++ ts ++ ".csv"

/-- One ledger entry, as passed to `logDownload` (which prepends the
timestamp).  Optional fields are present only at the call sites that set
them. -/
structure LedgerEntry where
  timestamp : String
  county : String
  sizeRange : String
  priceRange : String
  resultCount : Option Nat
  status : String
  filename : Option String
  error : Option String
  url : String
  deriving Repr, DecidableEq

/-- A JSON string literal (the serialized fields contain no characters that
`JSON.stringify` escapes). -/
def jsonStr (s : String) : String :=
  "\"" ++ s ++ "\""

/-- One serialized field, `"key":value`, preceded by a comma. -/
def jsonField (key val : String) : String :=
  "," ++ jsonStr key ++ ":" ++ val

/-- The line `JSON.stringify({timestamp, ...downloadInfo}) + '\n'` appended
by `logDownload`, with fields in the insertion order of the
`downloadRedfinData` call sites. -/
def entryLine (e : LedgerEntry) : String :=
  "\x7b" ++ jsonStr "timestamp" ++ ":" ++ jsonStr e.timestamp ++
    jsonField "county" (jsonStr e.county) ++
    jsonField "sizeRange" (jsonStr e.sizeRange) ++
    jsonField "priceRange" (jsonStr e.priceRange) ++
    (match e.resultCount with
     | some n => jsonField "resultCount" (toString n)
     | none => "") ++
    jsonField "status" (jsonStr e.status) ++
    (match e.filename with
     | some f => jsonField "filename" (jsonStr f)
     | none => "") ++
    (match e.error with
     | some m => jsonField "error" (jsonStr m)
     | none => "") ++
    jsonField "url" (jsonStr e.url) ++
    "\x7d\n"

/-- The ledger file content: concatenation of the appended lines (each
`logDownload` call appends one line to the file). -/
def ledgerContent : List LedgerEntry → String
  | [] => ""
  | e :: rest => entryLine e ++ ledgerContent rest

/-- `pat.isPrefixOf l` for character lists. -/
def charsPrefix : List Char → List Char → Bool
  | [], _ => true
  | _ :: _, [] => false
  | p :: ps, c :: cs => p == c && charsPrefix ps cs

/-- `content.includes(pat)`: substring search. -/
def charsContain (content pat : List Char) : Bool :=
  charsPrefix pat content ||
    match content with
    | [] => false
    | _ :: rest => charsContain rest pat

/-- `isAlreadyDownloaded` from `utils.js`: a raw substring search of
`` `${zip}_${sizeRange.label}_${priceRange.label}` `` over the whole log
file content (an absent file is the empty content). -/
def isAlreadyDownloaded (content : String) (zip : String)
    (sizeRange : SizeRange) (priceRange : PriceRange) : Bool :=
  let searchKey := zip ++ "_" ++ sizeRange.label ++ "_" ++ priceRange.label
  charsContain content.toList searchKey.toList

/-! ## Batch loop of `downloadRedfinData` (`downloadData.js`)

The body of the inner `for (const priceRange of applicablePriceRanges)` loop
is one `try`/`catch` block.  Its observable effect on the ledger and the
inter-query delay is a function of which branch the environment drives it
into; the branches are enumerated by `QueryOutcome`. -/

/-- Identifying data of one query attempt (the timestamp is the one
`logDownload` would prepend; the URL is `buildRedfinUrl`'s output). -/
structure QueryCtx where
  timestamp : String
  county : String
  sizeLabel : String
  priceLabel : String
  url : String
  deriving Repr, DecidableEq

/-- The branch the `try` block of the batch loop takes for one query.
`thrown` covers every exception caught by the per-query `catch`: navigation
retry exhaustion (`Failed to navigate after 3 attempts: ...`), `Login
failed`, `Download button not found after login`, `Download failed - no
file path`, and so on. -/
inductive QueryOutcome where
  | alreadyLogged
  | noResults
  | noDownloadButton (resultCount : Nat)
  | loginSuccess (resultCount : Nat) (filename : String)
  | directSuccess (resultCount : Nat) (filename : String)
  | thrown (msg : String)
  deriving Repr, DecidableEq

/-- Ledger entries appended for one query, and the `waitForTimeout` delay
(ms) imposed before the next query, exactly as the corresponding branch of
the loop body writes them. -/
def processQuery (ctx : QueryCtx) : QueryOutcome → List LedgerEntry × Nat
  | .alreadyLogged => ([], 0)
  | .noResults =>
      ([{ timestamp := ctx.timestamp, county := ctx.county,
          sizeRange := ctx.sizeLabel, priceRange := ctx.priceLabel,
          resultCount := some 0, status := "no_results",
          filename := none, error := none, url := ctx.url }], 0)
  | .noDownloadButton c =>
      ([{ timestamp := ctx.timestamp, county := ctx.county,
          sizeRange := ctx.sizeLabel, priceRange := ctx.priceLabel,
          resultCount := some c, status := "no_download_button",
          filename := none, error := none, url := ctx.url }], 0)
  | .loginSuccess c fn =>
      ([{ timestamp := ctx.timestamp, county := ctx.county,
          sizeRange := ctx.sizeLabel, priceRange := ctx.priceLabel,
          resultCount := some c, status := "success",
          filename := some fn, error := none, url := ctx.url }], 5000)
  | .directSuccess c fn =>
      ([{ timestamp := ctx.timestamp, county := ctx.county,
          sizeRange := ctx.sizeLabel, priceRange := ctx.priceLabel,
          resultCount := some c, status := "success",
          filename := some fn, error := none, url := ctx.url }], 15000)
  | .thrown msg =>
      ([{ timestamp := ctx.timestamp, county := ctx.county,
          sizeRange := ctx.sizeLabel, priceRange := ctx.priceLabel,
          resultCount := none, status := "error",
          filename := none, error := some msg, url := ctx.url }], 10000)

/-- The whole batch: every query is processed in order; the `catch` of a
`thrown` outcome ends in `continue`, so the loop never exits early. -/
def batchRun : List (QueryCtx × QueryOutcome) → List LedgerEntry
  | [] => []
  | (ctx, o) :: rest => (processQuery ctx o).1 ++ batchRun rest

/-! ## Capture strategies (`simpleDownload.js`) -/

/-- An HTTP response as seen by `downloadFileFromUrl`. -/
structure HttpResponse where
  status : Nat
  body : String
  deriving Repr, DecidableEq

/-- `downloadFileFromUrl`: on 200 the body is streamed to disk and the
promise resolves (no byte-count inspection); 301/302 re-issues against the
redirect target (the next response of the list); anything else rejects.
An exhausted list models the 60-second socket timeout. -/
def downloadFileFromUrl : List HttpResponse → Except String String
  | [] => .error "Download timeout"
  | r :: rest =>
      if r.status = 200 then .ok r.body
      else if r.status = 301 ∨ r.status = 302 then downloadFileFromUrl rest
      else .error ("HTTP " ++ toString r.status)

/-- A ledger entry of the standalone `simpleDownload.js` script (shape
`{county, filters, status, filename?, error?, method, originalUrl}`). -/
structure CaptureLogEntry where
  status : String
  method : String
  filename : Option String
  error : Option String
  deriving Repr, DecidableEq

/-- The `direct_url` strategy around its `downloadFileFromUrl` call: a
resolved promise logs `success` (whatever was written to disk), a rejected
one logs `failed` with the error message (the 403 `browser_direct` detour
not taken). -/
def directUrlCapture (resps : List HttpResponse) (filename : String) :
    CaptureLogEntry :=
  match downloadFileFromUrl resps with
  | .ok _ =>
      { status := "success", method := "direct_url",
        filename := some filename, error := none }
  | .error e =>
      { status := "failed", method := "direct_url",
        filename := none, error := some e }

/-- The guard `if (interceptedCsvData)` on the network-interception
strategy: `none` models the initial `null`, and an empty captured body is
falsy, so the branch is skipped. -/
def interceptionFires (interceptedCsvData : Option String) : Bool :=
  match interceptedCsvData with
  | none => false
  | some s => s ≠ ""

/-- A completed browser download event: the path `download.path()` returned
(`none` models `null`) and the bytes of the file it points to. -/
structure BrowserDownload where
  path : Option String
  body : String
  deriving Repr, DecidableEq

/-- The traditional-download branch logs `success` exactly when the awaited
download event produced a path; the file's byte count is never read. -/
def traditionalLogsSuccess (download : Option BrowserDownload) : Bool :=
  match download with
  | none => false
  | some d => d.path.isSome

/-! ## Specification-side definitions (for refinement claims) -/

/-- The percentile formula exactly as §4.6 of the specification words it:
`array[floor(index)] + (array[ceil(index)] − array[floor(index)]) ×
(index − floor(index))` with `index = (p/100)×(n−1)`, with no
integer-index special case. -/
def percentileFormulaSpec (sortedArray : List ℚ) (percentile : ℚ) : ℚ :=
  let index := (percentile / 100) * ((sortedArray.length : ℚ) - 1)
  sortedArray.getD (⌊index⌋).toNat 0 +
    (sortedArray.getD (⌈index⌉).toNat 0 - sortedArray.getD (⌊index⌋).toNat 0) *
      (index - ((⌊index⌋).toNat : ℚ))

/-- The body of `calculatePercentile` as a function of the interpolation
index (proof-side reformulation; `calculatePercentile l p` is definitionally
`interpAt l ((p/100)·(n−1))`). -/
def interpAt (l : List ℚ) (x : ℚ) : ℚ :=
  if (⌊x⌋).toNat = (⌈x⌉).toNat then l.getD (⌊x⌋).toNat 0
  else
    l.getD (⌊x⌋).toNat 0 +
      (l.getD (⌈x⌉).toNat 0 - l.getD (⌊x⌋).toNat 0) * (x - ((⌊x⌋).toNat : ℚ))

/-! ## Theorems -/

lemma calculatePercentile_eq_interpAt (l : List ℚ) (p : ℚ) :
    calculatePercentile l p = interpAt l ((p / 100) * ((l.length : ℚ) - 1)) :=
  rfl

lemma sortAsc_sorted (l : List ℚ) : (sortAsc l).Sorted (· ≤ ·) :=
  List.sorted_insertionSort (· ≤ ·) l

lemma sortAsc_perm (l : List ℚ) : List.Perm (sortAsc l) l :=
  List.perm_insertionSort (· ≤ ·) l

lemma sortAsc_length (l : List ℚ) : (sortAsc l).length = l.length :=
  (sortAsc_perm l).length_eq

lemma sortAsc_mem {x : ℚ} {l : List ℚ} : x ∈ sortAsc l ↔ x ∈ l :=
  (sortAsc_perm l).mem_iff

lemma getD_mem {l : List ℚ} {i : Nat} (h : i < l.length) : l.getD i 0 ∈ l := by
  rw [List.getD_eq_getElem?_getD, List.getElem?_eq_getElem h]
  exact List.getElem_mem h

lemma getD_mono {l : List ℚ} (hs : l.Sorted (· ≤ ·)) {i j : Nat}
    (hij : i ≤ j) (hj : j < l.length) : l.getD i 0 ≤ l.getD j 0 := by
  have hi : i < l.length := lt_of_le_of_lt hij hj
  rw [List.getD_eq_getElem?_getD, List.getD_eq_getElem?_getD,
    List.getElem?_eq_getElem hi, List.getElem?_eq_getElem hj]
  simpa using hs.rel_get_of_le (a := ⟨i, hi⟩) (b := ⟨j, hj⟩) hij

lemma interp_bounds (l : List ℚ) (hs : l.Sorted (· ≤ ·)) {x : ℚ}
    (hx0 : 0 ≤ x) (hx1 : x ≤ (l.length : ℚ) - 1) :
    l.getD (⌊x⌋).toNat 0 ≤ interpAt l x ∧
      interpAt l x ≤ l.getD (⌈x⌉).toNat 0 := by
  have hfl0 : 0 ≤ ⌊x⌋ := Int.floor_nonneg.mpr hx0
  have hcl0 : 0 ≤ ⌈x⌉ := le_trans hfl0 (Int.floor_le_ceil x)
  have hflNat : ((⌊x⌋).toNat : ℤ) = ⌊x⌋ := Int.toNat_of_nonneg hfl0
  have hclNat : ((⌈x⌉).toNat : ℤ) = ⌈x⌉ := Int.toNat_of_nonneg hcl0
  have hflq : (((⌊x⌋).toNat : ℚ)) = ((⌊x⌋ : ℤ) : ℚ) := by exact_mod_cast hflNat
  have hfl_le : (((⌊x⌋).toNat : ℚ)) ≤ x := by rw [hflq]; exact Int.floor_le x
  have hfl_lt : x < (((⌊x⌋).toNat : ℚ)) + 1 := by
    rw [hflq]
    exact_mod_cast Int.lt_floor_add_one x
  have hcl_len : (⌈x⌉).toNat < l.length := by
    have h2 : ⌈x⌉ ≤ (l.length : ℤ) - 1 := Int.ceil_le.mpr (by push_cast; linarith)
    omega
  have hfl_le_cl : (⌊x⌋).toNat ≤ (⌈x⌉).toNat := by
    have := Int.floor_le_ceil x
    omega
  have ha : l.getD (⌊x⌋).toNat 0 ≤ l.getD (⌈x⌉).toNat 0 :=
    getD_mono hs hfl_le_cl hcl_len
  unfold interpAt
  by_cases h : (⌊x⌋).toNat = (⌈x⌉).toNat
  · rw [if_pos h]
    exact ⟨le_refl _, ha⟩
  · rw [if_neg h]
    constructor
    · nlinarith [mul_nonneg (sub_nonneg.mpr ha) (sub_nonneg.mpr hfl_le)]
    · nlinarith [mul_nonneg (sub_nonneg.mpr ha)
        (by linarith :
          (0 : ℚ) ≤ 1 - (x - (((⌊x⌋).toNat : ℚ))))]

lemma interp_mono (l : List ℚ) (hs : l.Sorted (· ≤ ·)) {x y : ℚ}
    (hx0 : 0 ≤ x) (hxy : x ≤ y) (hy1 : y ≤ (l.length : ℚ) - 1)
    (hN : 1 ≤ l.length) : interpAt l x ≤ interpAt l y := by
  have hy0 : 0 ≤ y := le_trans hx0 hxy
  have hx1 : x ≤ (l.length : ℚ) - 1 := le_trans hxy hy1
  have hbx := interp_bounds l hs hx0 hx1
  have hby := interp_bounds l hs hy0 hy1
  have hfl0x : 0 ≤ ⌊x⌋ := Int.floor_nonneg.mpr hx0
  have hfl0y : 0 ≤ ⌊y⌋ := Int.floor_nonneg.mpr hy0
  have hcl0x : 0 ≤ ⌈x⌉ := le_trans hfl0x (Int.floor_le_ceil x)
  have hcl0y : 0 ≤ ⌈y⌉ := le_trans hfl0y (Int.floor_le_ceil y)
  by_cases hfl : ⌊x⌋ = ⌊y⌋
  · by_cases hintx : (⌊x⌋).toNat = (⌈x⌉).toNat
    · have hx : interpAt l x = l.getD (⌊x⌋).toNat 0 := by
        unfold interpAt
        rw [if_pos hintx]
      rw [hx, hfl]
      exact hby.1
    · by_cases hinty : (⌊y⌋).toNat = (⌈y⌉).toNat
      · -- `y` sits on an integer index while `x` does not, yet they share a
        -- floor: forces `x = y`, contradicting that `x` is not integral.
        exfalso
        have hyint : ((⌊y⌋ : ℤ) : ℚ) = y := by
          have h1 : ⌊y⌋ = ⌈y⌉ := by omega
          have h2 := Int.le_ceil y
          have h3 := Int.floor_le y
          rw [← h1] at h2
          exact le_antisymm h3 h2
        have hxeqy : x = y := by
          have h4 : y ≤ x := by
            calc y = ((⌊y⌋ : ℤ) : ℚ) := hyint.symm
            _ = ((⌊x⌋ : ℤ) : ℚ) := by rw [hfl]
            _ ≤ x := Int.floor_le x
          exact le_antisymm hxy h4
        rw [hxeqy] at hintx
        exact hintx hinty
      · -- both strictly between the same pair of integer indices
        have hcex : ⌈x⌉ = ⌊x⌋ + 1 := by
          have h1 := Int.ceil_le_floor_add_one x
          have h2 := Int.floor_le_ceil x
          omega
        have hcey : ⌈y⌉ = ⌊y⌋ + 1 := by
          have h1 := Int.ceil_le_floor_add_one y
          have h2 := Int.floor_le_ceil y
          omega
        have hidx : (⌈x⌉).toNat = (⌊x⌋).toNat + 1 := by omega
        have hidy : (⌈y⌉).toNat = (⌊y⌋).toNat + 1 := by omega
        have hflN : (⌊y⌋).toNat = (⌊x⌋).toNat := by omega
        have hclN : (⌈y⌉).toNat = (⌈x⌉).toNat := by omega
        unfold interpAt
        rw [if_neg hintx, if_neg hinty, hflN, hclN]
        have hcl_len : (⌈x⌉).toNat < l.length := by
          have h2 : ⌈x⌉ ≤ (l.length : ℤ) - 1 := Int.ceil_le.mpr (by push_cast; linarith)
          omega
        have ha : l.getD (⌊x⌋).toNat 0 ≤ l.getD (⌈x⌉).toNat 0 :=
          getD_mono hs (by omega) hcl_len
        nlinarith [mul_le_mul_of_nonneg_left hxy (sub_nonneg.mpr ha)]
  · have hlt : ⌊x⌋ < ⌊y⌋ :=
      lt_of_le_of_ne (Int.floor_le_floor hxy) hfl
    have hfly_len : (⌊y⌋).toNat < l.length := by
      have h2 : (⌊y⌋ : ℚ) ≤ (l.length : ℚ) - 1 := le_trans (Int.floor_le y) hy1
      have h3 : ⌊y⌋ ≤ (l.length : ℤ) - 1 := by exact_mod_cast h2
      omega
    have hstep : (⌈x⌉).toNat ≤ (⌊y⌋).toNat := by
      have h1 := Int.ceil_le_floor_add_one x
      omega
    calc interpAt l x ≤ l.getD (⌈x⌉).toNat 0 := hbx.2
    _ ≤ l.getD (⌊y⌋).toNat 0 := getD_mono hs hstep hfly_len
    _ ≤ interpAt l y := hby.1

lemma index_nonneg {l : List ℚ} (hl : 1 ≤ l.length) {p : ℚ} (h0 : 0 ≤ p) :
    0 ≤ (p / 100) * ((l.length : ℚ) - 1) := by
  apply mul_nonneg (by positivity)
  have : (1 : ℚ) ≤ (l.length : ℚ) := by exact_mod_cast hl
  linarith

lemma index_le {l : List ℚ} {p : ℚ} (hl : 1 ≤ l.length) (_h0 : 0 ≤ p)
    (h100 : p ≤ 100) :
    (p / 100) * ((l.length : ℚ) - 1) ≤ (l.length : ℚ) - 1 := by
  have h1 : p / 100 ≤ 1 := by linarith
  have h2 : (0 : ℚ) ≤ (l.length : ℚ) - 1 := by
    have : (1 : ℚ) ≤ (l.length : ℚ) := by exact_mod_cast hl
    linarith
  exact mul_le_of_le_one_left h2 h1

lemma percentile_ge_head {l : List ℚ} (hs : l.Sorted (· ≤ ·))
    (hl : 1 ≤ l.length) {p : ℚ} (h0 : 0 ≤ p) (h100 : p ≤ 100) :
    l.getD 0 0 ≤ calculatePercentile l p := by
  rw [calculatePercentile_eq_interpAt]
  have hx0 := index_nonneg hl h0
  have hx1 := index_le hl h0 h100
  refine le_trans (getD_mono hs (Nat.zero_le _) ?_)
    (interp_bounds l hs hx0 hx1).1
  have h2 : ((⌊(p / 100) * ((l.length : ℚ) - 1)⌋ : ℤ) : ℚ) ≤ (l.length : ℚ) - 1 :=
    le_trans (Int.floor_le _) hx1
  have h3 : ⌊(p / 100) * ((l.length : ℚ) - 1)⌋ ≤ (l.length : ℤ) - 1 := by
    exact_mod_cast h2
  omega

lemma percentile_le_last {l : List ℚ} (hs : l.Sorted (· ≤ ·))
    (hl : 1 ≤ l.length) {p : ℚ} (h0 : 0 ≤ p) (h100 : p ≤ 100) :
    calculatePercentile l p ≤ l.getD (l.length - 1) 0 := by
  rw [calculatePercentile_eq_interpAt]
  have hx0 := index_nonneg hl h0
  have hx1 := index_le hl h0 h100
  refine le_trans (interp_bounds l hs hx0 hx1).2 (getD_mono hs ?_ (by omega))
  have h2 : ⌈(p / 100) * ((l.length : ℚ) - 1)⌉ ≤ (l.length : ℤ) - 1 :=
    Int.ceil_le.mpr (by push_cast; linarith)
  omega

lemma percentile_mono {l : List ℚ} (hs : l.Sorted (· ≤ ·))
    (hl : 1 ≤ l.length) {p p' : ℚ} (h0 : 0 ≤ p) (hpp : p ≤ p')
    (h100 : p' ≤ 100) :
    calculatePercentile l p ≤ calculatePercentile l p' := by
  rw [calculatePercentile_eq_interpAt, calculatePercentile_eq_interpAt]
  apply interp_mono l hs (index_nonneg hl h0) ?_ (index_le hl (le_trans h0 hpp) h100) hl
  have h2 : (0 : ℚ) ≤ (l.length : ℚ) - 1 := by
    have : (1 : ℚ) ≤ (l.length : ℚ) := by exact_mod_cast hl
    linarith
  exact mul_le_mul_of_nonneg_right (by linarith) h2

lemma median_eq_p50 (l : List ℚ) (hl : 1 ≤ l.length) :
    calculateMedian l = calculatePercentile l 50 := by
  rw [calculatePercentile_eq_interpAt]
  rcases Nat.even_or_odd l.length with ⟨m, hm⟩ | ⟨m, hm⟩
  · have hm1 : 1 ≤ m := by omega
    have hx : (50 / 100 : ℚ) * ((l.length : ℚ) - 1) = (m : ℚ) - 1 / 2 := by
      rw [hm]
      push_cast
      ring
    rw [hx]
    have hfl : ⌊(m : ℚ) - 1 / 2⌋ = (m : ℤ) - 1 := by
      rw [Int.floor_eq_iff]
      constructor <;> push_cast <;> linarith
    have hcl : ⌈(m : ℚ) - 1 / 2⌉ = (m : ℤ) := by
      rw [Int.ceil_eq_iff]
      constructor <;> push_cast <;> linarith
    unfold interpAt calculateMedian
    rw [hfl, hcl]
    have h1 : ((m : ℤ) - 1).toNat = m - 1 := by omega
    have h2 : ((m : ℤ)).toNat = m := by omega
    rw [h1, h2]
    rw [if_neg (by omega : ¬(m - 1 = m))]
    have hmid : l.length / 2 = m := by omega
    rw [if_neg (by omega : ¬(l.length % 2 ≠ 0)), hmid]
    have hcast : ((m - 1 : ℕ) : ℚ) = (m : ℚ) - 1 := by
      push_cast [hm1]
      ring
    rw [hcast]
    ring
  · have hx : (50 / 100 : ℚ) * ((l.length : ℚ) - 1) = (m : ℚ) := by
      rw [hm]
      push_cast
      ring
    rw [hx]
    have hfl : ⌊(m : ℚ)⌋ = (m : ℤ) := by exact_mod_cast Int.floor_intCast (m : ℤ)
    have hcl : ⌈(m : ℚ)⌉ = (m : ℤ) := by exact_mod_cast Int.ceil_intCast (m : ℤ)
    unfold interpAt calculateMedian
    rw [hfl, hcl]
    rw [if_pos rfl]
    have h2 : ((m : ℤ)).toNat = m := by omega
    rw [h2]
    have hmid : l.length / 2 = m := by omega
    rw [if_pos (by omega : l.length % 2 ≠ 0), hmid]

/-- C7: `categorizeLotSize` is a pure function of acres with closed-low/open
breakpoints `0.25 / 0.5 / 1 / 3 / 5`, mapping `0.25` to `"0-0.25"` and
`0.2500001` to `"0.25-0.5"`. -/
theorem C7_categorize_breakpoints (a : ℚ) :
    (a ≤ 0.25 → categorizeLotSize a = "0-0.25") ∧
    (0.25 < a → a ≤ 0.5 → categorizeLotSize a = "0.25-0.5") ∧
    (0.5 < a → a ≤ 1 → categorizeLotSize a = "0.5-1") ∧
    (1 < a → a ≤ 3 → categorizeLotSize a = "1-3") ∧
    (3 < a → a ≤ 5 → categorizeLotSize a = "3-5") ∧
    (5 < a → categorizeLotSize a = "5+") ∧
    categorizeLotSize 0.25 = "0-0.25" ∧
    categorizeLotSize 0.2500001 = "0.25-0.5" := by
  unfold categorizeLotSize
  refine ⟨?_, ?_, ?_, ?_, ?_, ?_, ?_, ?_⟩ <;>
    intros <;> split_ifs <;> first | rfl | linarith

/-- Witness for C7 at concrete acreages in each band. -/
theorem C7_categorize_breakpoints_witness :
    categorizeLotSize 0.1 = "0-0.25" ∧ categorizeLotSize 0.3 = "0.25-0.5" ∧
    categorizeLotSize 0.7 = "0.5-1" ∧ categorizeLotSize 2 = "1-3" ∧
    categorizeLotSize 4 = "3-5" ∧ categorizeLotSize 6 = "5+" :=
  ⟨(C7_categorize_breakpoints 0.1).1 (by norm_num),
   (C7_categorize_breakpoints 0.3).2.1 (by norm_num) (by norm_num),
   (C7_categorize_breakpoints 0.7).2.2.1 (by norm_num) (by norm_num),
   (C7_categorize_breakpoints 2).2.2.2.1 (by norm_num) (by norm_num),
   (C7_categorize_breakpoints 4).2.2.2.2.1 (by norm_num) (by norm_num),
   (C7_categorize_breakpoints 6).2.2.2.2.2.1 (by norm_num)⟩

/-- C9 (code bug evidence): the inter-query delay the batch loop imposes
after a caught failure is 10000 ms, which is shorter, not longer, than the
15000 ms it imposes after a normal successful download (the login-branch
success delay is 5000 ms). -/
theorem C9_delays (ctx : QueryCtx) (msg fn : String) (c : Nat) :
    (processQuery ctx (.thrown msg)).2 = 10000 ∧
    (processQuery ctx (.directSuccess c fn)).2 = 15000 ∧
    (processQuery ctx (.loginSuccess c fn)).2 = 5000 ∧
    (processQuery ctx (.thrown msg)).2 < (processQuery ctx (.directSuccess c fn)).2 :=
  ⟨rfl, rfl, rfl, by simp [processQuery]⟩

/-- C4 counterexample: when every capture attempt for a query fails, the
batch loop's `catch` appends a ledger entry whose status is the string
`"error"`, not `"failed"`. -/
theorem C4_counterexample :
    ((processQuery ⟨"t", "Okaloosa", "0-0.25", "0-50000", "u"⟩
        (.thrown "Login failed")).1.map (·.status)) = ["error"] ∧
    "error" ≠ "failed" :=
  ⟨rfl, by decide⟩

/-- C4 amended: the batch loop records a caught per-query failure with
status `"error"` carrying the last error message; the standalone
`simpleDownload.js` script's direct-URL strategy is the path that records
status `"failed"` with the error message. -/
theorem C4_amended_statuses (ctx : QueryCtx) (msg : String)
    (resps : List HttpResponse) (f e : String)
    (h : downloadFileFromUrl resps = .error e) :
    ((processQuery ctx (.thrown msg)).1.map fun en => (en.status, en.error)) =
      [("error", some msg)] ∧
    (directUrlCapture resps f).status = "failed" ∧
    (directUrlCapture resps f).error = some e := by
  refine ⟨rfl, ?_, ?_⟩ <;> simp [directUrlCapture, h]

/-- Witness for C4 at a timed-out direct download. -/
theorem C4_amended_statuses_witness :
    ((processQuery ⟨"t", "Okaloosa", "0-0.25", "0-50000", "u"⟩
        (.thrown "Login failed")).1.map fun en => (en.status, en.error)) =
      [("error", some "Login failed")] ∧
    (directUrlCapture [] "f.csv").status = "failed" ∧
    (directUrlCapture [] "f.csv").error = some "Download timeout" :=
  C4_amended_statuses ⟨"t", "Okaloosa", "0-0.25", "0-50000", "u"⟩
    "Login failed" [] "f.csv" "Download timeout" rfl

/-- C5 counterexample: an HTTP 200 response with a zero-byte body makes
`downloadFileFromUrl` resolve, and the direct-URL strategy records a
`success` ledger entry for the zero-byte payload instead of failing over. -/
theorem C5_counterexample :
    downloadFileFromUrl [⟨200, ""⟩] = .ok "" ∧
    (directUrlCapture [⟨200, ""⟩] "f.csv").status = "success" :=
  ⟨rfl, rfl⟩

/-- C5 amended: only the network-interception strategy treats an empty
captured body as absent (its truthiness guard fails, so the engine falls
through); the native-download and direct-replay strategies decide success
from the transport outcome alone, independent of the payload bytes. -/
theorem C5_amended_zero_byte :
    (∀ st : Nat, ∀ b b' f : String,
        (directUrlCapture [⟨st, b⟩] f).status = (directUrlCapture [⟨st, b'⟩] f).status) ∧
    (∀ p : Option String, ∀ b b' : String,
        traditionalLogsSuccess (some ⟨p, b⟩) = traditionalLogsSuccess (some ⟨p, b'⟩)) ∧
    interceptionFires (some "") = false ∧
    interceptionFires none = false ∧
    (∀ b : String, b ≠ "" → interceptionFires (some b) = true) := by
  refine ⟨?_, ?_, rfl, rfl, ?_⟩
  · intro st b b' f
    by_cases h : st = 200 <;>
      by_cases h' : st = 301 ∨ st = 302 <;>
        simp [directUrlCapture, downloadFileFromUrl, h, h']
  · intro p b b'
    rfl
  · intro b hb
    simp [interceptionFires, hb]

/-- Witness for C5 amended at a non-empty intercepted body. -/
theorem C5_amended_zero_byte_witness :
    interceptionFires (some "SOLD DATE,ADDRESS") = true :=
  C5_amended_zero_byte.2.2.2.2 "SOLD DATE,ADDRESS" (by decide)

/-- C1 counterexample: with a `maxPrice` cap present, the partitioner keeps
a price range whose upper bound is unbounded (`null`), rather than
excluding it. -/
theorem C1_counterexample :
    getPriceRangesForSize ⟨"0-0.25", 0, 0.25, some 190000⟩
        [⟨"600k+", 600000, none⟩] =
      [⟨"600k+", 600000, none⟩] := by
  simp [getPriceRangesForSize]

/-- C1 amended: under a truthy `maxPrice` cap, a price range with a bounded
upper bound is kept exactly when that bound is ≤ the cap, while price
ranges with an unbounded (`null`) upper bound are always kept; without a
cap the full list is returned unfiltered. -/
theorem C1_amended_partitioner (sr : SizeRange) (cap : ℚ) (ps : List PriceRange)
    (hc : sr.maxPrice = some cap) (h0 : cap ≠ 0) :
    (∀ p : PriceRange, p ∈ getPriceRangesForSize sr ps ↔
        p ∈ ps ∧ (p.max = none ∨ ∃ m, p.max = some m ∧ m ≤ cap)) ∧
    (∀ sr' : SizeRange, sr'.maxPrice = none →
        getPriceRangesForSize sr' ps = ps) := by
  constructor
  · intro p
    simp only [getPriceRangesForSize, hc]
    rw [if_pos h0, List.mem_filter]
    cases hpm : p.max with
    | none => simp [hpm]
    | some m => simp [hpm]
  · intro sr' h
    simp only [getPriceRangesForSize, h]

/-- Witness for C1 amended: a $0–50k range survives a $190k cap. -/
theorem C1_amended_partitioner_witness :
    (⟨"0-50k", 0, some 50000⟩ : PriceRange) ∈
      getPriceRangesForSize ⟨"0-0.25", 0, 0.25, some 190000⟩
        [⟨"0-50k", 0, some 50000⟩] :=
  ((C1_amended_partitioner ⟨"0-0.25", 0, 0.25, some 190000⟩ 190000
      [⟨"0-50k", 0, some 50000⟩] rfl (by norm_num)).1 _).mpr
    (by norm_num)

/-- C3: the batch loop processes every query: the ledger produced for a
batch splits around any one query, a `thrown` (caught) failure contributes
exactly one `"error"` entry, and the queries after it are still processed
with unchanged results. -/
theorem C3_failure_containment (pre : List (QueryCtx × QueryOutcome))
    (ctx : QueryCtx) (o : QueryOutcome) (post : List (QueryCtx × QueryOutcome)) :
    batchRun (pre ++ (ctx, o) :: post) =
      batchRun pre ++ (processQuery ctx o).1 ++ batchRun post ∧
    (∀ msg, o = .thrown msg →
      (processQuery ctx o).1 =
        [{ timestamp := ctx.timestamp, county := ctx.county,
           sizeRange := ctx.sizeLabel, priceRange := ctx.priceLabel,
           resultCount := none, status := "error",
           filename := none, error := some msg, url := ctx.url }]) := by
  constructor
  · induction pre with
    | nil => simp [batchRun]
    | cons q rest ih =>
        obtain ⟨cq, oq⟩ := q
        simp [batchRun, ih, List.append_assoc]
  · rintro msg rfl
    rfl

/-- Witness for C3: a failed query between two successful ones leaves the
other two queries' ledger entries intact. -/
theorem C3_failure_containment_witness :
    batchRun ([(⟨"t1", "C", "s1", "p1", "u1"⟩, .directSuccess 3 "a.csv")] ++
        (⟨"t2", "C", "s2", "p2", "u2"⟩, .thrown "Login failed") ::
        [(⟨"t3", "C", "s3", "p3", "u3"⟩, .directSuccess 5 "b.csv")]) =
      batchRun [(⟨"t1", "C", "s1", "p1", "u1"⟩, .directSuccess 3 "a.csv")] ++
        [{ timestamp := "t2", county := "C", sizeRange := "s2",
           priceRange := "p2", resultCount := none, status := "error",
           filename := none, error := some "Login failed", url := "u2" }] ++
        batchRun [(⟨"t3", "C", "s3", "p3", "u3"⟩, .directSuccess 5 "b.csv")] := by
  have h := C3_failure_containment
    [(⟨"t1", "C", "s1", "p1", "u1"⟩, .directSuccess 3 "a.csv")]
    ⟨"t2", "C", "s2", "p2", "u2"⟩ (.thrown "Login failed")
    [(⟨"t3", "C", "s3", "p3", "u3"⟩, .directSuccess 5 "b.csv")]
  exact h.1.trans (by rw [h.2 "Login failed" rfl])

/-- Evaluation of `processRecord` on the well-formed row, with the rounded
fields left symbolic (rational floor does not reduce definitionally). -/
lemma processRecord_goodRow_raw :
    processRecord [("PRICE", "100000"), ("LOT SIZE", "10000"),
        ("ZIP OR POSTAL CODE", "32541")] =
      some { address := "", zipCode := "32541",
             price := ((100000 : ℕ) : ℚ), lotSizeSqft := ((10000 : ℕ) : ℚ),
             acres := toFixedQ 4 (((10000 : ℕ) : ℚ) / 43560),
             pricePerAcre := toFixedQ 2 (((100000 : ℕ) : ℚ) / (((10000 : ℕ) : ℚ) / 43560)),
             sizeCategory := categorizeLotSize (((10000 : ℕ) : ℚ) / 43560),
             saleDate := "" } := rfl

lemma toFixedQ_goodRow_acres : toFixedQ 4 (((10000 : ℕ) : ℚ) / 43560) = 287 / 1250 := by
  unfold toFixedQ
  push_cast
  norm_num

lemma toFixedQ_goodRow_ppa :
    toFixedQ 2 (((100000 : ℕ) : ℚ) / (((10000 : ℕ) : ℚ) / 43560)) = 435600 := by
  unfold toFixedQ
  push_cast
  norm_num

lemma categorize_goodRow : categorizeLotSize (((10000 : ℕ) : ℚ) / 43560) = "0-0.25" := by
  unfold categorizeLotSize
  rw [if_pos (by push_cast; norm_num)]

/-- The well-formed row as `processRecord` actually returns it. -/
lemma processRecord_goodRow :
    processRecord [("PRICE", "100000"), ("LOT SIZE", "10000"),
        ("ZIP OR POSTAL CODE", "32541")] =
      some { address := "", zipCode := "32541", price := 100000,
             lotSizeSqft := 10000, acres := 287 / 1250, pricePerAcre := 435600,
             sizeCategory := "0-0.25", saleDate := "" } := by
  rw [processRecord_goodRow_raw, toFixedQ_goodRow_acres, toFixedQ_goodRow_ppa,
    categorize_goodRow]
  norm_num

/-- Rows whose recognized zip aliases are missing or empty are dropped. -/
lemma processRecord_of_no_zip (r : RawRow)
    (h : strField r "ZIP OR POSTAL CODE" "Zip Code" = "") :
    processRecord r = none := by
  simp only [processRecord, h]
  rw [if_neg]
  simp

/-- C6 counterexample: a CSV row whose zip value sits under the header
`ZIP` is dropped by `processRecord` (which reads only the aliases
`ZIP OR POSTAL CODE` and `Zip Code`), so the claimed row produces no
record; moreover the claimed `pricePerAcre ≈ 435536.06` does not match the
code, which yields exactly 435600 for these field values. -/
theorem C6_counterexample :
    processRecord [("PRICE", "100000"), ("LOT SIZE", "10000"), ("ZIP", "32541")] =
      none ∧
    (processRecord [("PRICE", "100000"), ("LOT SIZE", "10000"),
        ("ZIP OR POSTAL CODE", "32541")]).map (·.pricePerAcre) = some 435600 ∧
    (435600 : ℚ) ≠ 435536.06 :=
  ⟨rfl, by rw [processRecord_goodRow]; rfl, by norm_num⟩

/-- C6 amended: the row with its zip under the recognized header
`ZIP OR POSTAL CODE` yields `acres = 0.2296`, `pricePerAcre = 435600.00`
and `sizeCategory = "0-0.25"`; every row whose recognized zip aliases are
missing or empty is dropped (`processRecord` returns `none`) and its removal
leaves the processed record set — hence every aggregation bucket —
unchanged. -/
theorem C6_amended_ingestion :
    (processRecord [("PRICE", "100000"), ("LOT SIZE", "10000"),
        ("ZIP OR POSTAL CODE", "32541")] =
      some { address := "", zipCode := "32541", price := 100000,
             lotSizeSqft := 10000, acres := 287 / 1250, pricePerAcre := 435600,
             sizeCategory := "0-0.25", saleDate := "" }) ∧
    ((287 : ℚ) / 1250 = 0.2296) ∧
    (∀ r : RawRow, strField r "ZIP OR POSTAL CODE" "Zip Code" = "" →
        processRecord r = none) ∧
    (∀ (l₁ l₂ : List RawRow) (r : RawRow),
        strField r "ZIP OR POSTAL CODE" "Zip Code" = "" →
        processRows (l₁ ++ r :: l₂) = processRows (l₁ ++ l₂)) := by
  refine ⟨processRecord_goodRow, by norm_num, processRecord_of_no_zip, ?_⟩
  intro l₁ l₂ r h
  simp [processRows, List.filterMap_append, List.filterMap_cons,
    processRecord_of_no_zip r h]

/-- Witness for C6 amended: a row with no zip alias at all is dropped and
its removal leaves the processed set unchanged. -/
theorem C6_amended_ingestion_witness :
    processRecord [("PRICE", "100000"), ("LOT SIZE", "10000")] = none ∧
    processRows ([] ++ [("PRICE", "100000"), ("LOT SIZE", "10000")] :: []) =
      processRows ([] ++ []) :=
  ⟨C6_amended_ingestion.2.2.1 _ rfl, C6_amended_ingestion.2.2.2 [] [] _ rfl⟩

/-- C8: `calculatePercentile` computes exactly the specification's
interpolation formula `a[⌊i⌋] + (a[⌈i⌉] − a[⌊i⌋])·(i − ⌊i⌋)` with
`i = (p/100)·(n−1)` (the code's integer-index branch coincides with the
formula because the interpolation coefficient vanishes there), and on the
sorted array `[10, 20, 30, 40]` the 25th percentile is 17.5 and the 75th
percentile is 32.5. -/
theorem C8_percentile_formula :
    (∀ (l : List ℚ) (p : ℚ), calculatePercentile l p = percentileFormulaSpec l p) ∧
    calculatePercentile [10, 20, 30, 40] 25 = 17.5 ∧
    calculatePercentile [10, 20, 30, 40] 75 = 32.5 := by
  refine ⟨?_, ?_, ?_⟩
  · intro l p
    simp only [calculatePercentile, percentileFormulaSpec]
    by_cases h :
        (⌊(p / 100) * ((l.length : ℚ) - 1)⌋).toNat =
          (⌈(p / 100) * ((l.length : ℚ) - 1)⌉).toNat
    · rw [if_pos h, h]
      ring
    · rw [if_neg h]
  · have hc : ⌈(3 / 4 : ℚ)⌉ = 1 := Int.ceil_eq_iff.mpr (by norm_num)
    unfold calculatePercentile
    norm_num [hc, Int.toNat]
  · have hc : ⌈(9 / 4 : ℚ)⌉ = 3 := Int.ceil_eq_iff.mpr (by norm_num)
    unfold calculatePercentile
    norm_num [hc, Int.toNat]

/-! ### Substring-search lemmas for the ledger skip check -/

lemma strToList_append (a b : String) : (a ++ b).toList = a.toList ++ b.toList :=
  rfl

lemma charsPrefix_self_append (p t : List Char) : charsPrefix p (p ++ t) = true := by
  induction p with
  | nil => rfl
  | cons c cs ih => simp [charsPrefix, ih]

lemma charsPrefix_extend {p l : List Char} (t : List Char)
    (h : charsPrefix p l = true) : charsPrefix p (l ++ t) = true := by
  induction p generalizing l with
  | nil => rfl
  | cons c cs ih =>
      cases l with
      | nil => simp [charsPrefix] at h
      | cons d ds =>
          simp only [charsPrefix, Bool.and_eq_true] at h
          simp [charsPrefix, h.1, ih h.2]

lemma charsContain_nil_pat (l : List Char) : charsContain l [] = true := by
  unfold charsContain
  simp [charsPrefix]

lemma charsContain_append_left {l : List Char} (t : List Char) {pat : List Char}
    (h : charsContain l pat = true) : charsContain (l ++ t) pat = true := by
  induction l with
  | nil =>
      unfold charsContain at h
      cases pat with
      | nil => exact charsContain_nil_pat t
      | cons c cs => simp [charsPrefix] at h
  | cons c cs ih =>
      unfold charsContain at h
      rcases Bool.or_eq_true_iff.mp h with h' | h'
      · show charsContain (c :: (cs ++ t)) pat = true
        unfold charsContain
        exact Bool.or_eq_true_iff.mpr (Or.inl (charsPrefix_extend t h'))
      · show charsContain (c :: (cs ++ t)) pat = true
        unfold charsContain
        exact Bool.or_eq_true_iff.mpr (Or.inr (ih h'))

lemma charsContain_append_right (l : List Char) {t pat : List Char}
    (h : charsContain t pat = true) : charsContain (l ++ t) pat = true := by
  induction l with
  | nil => simpa using h
  | cons c cs ih =>
      unfold charsContain
      simp [ih]

lemma charsContain_of_decomp {l pat : List Char} (s t : List Char)
    (h : l = s ++ (pat ++ t)) : charsContain l pat = true := by
  subst h
  apply charsContain_append_right
  unfold charsContain
  simp [charsPrefix_self_append]

/-- The search key `` `${zip}_${sizeLabel}_${priceLabel}` `` occurs inside
the serialized line of a ledger entry whose filename was produced by
`createSafeFilename` from sanitization-invariant labels. -/
lemma key_in_entryLine (e : LedgerEntry) (zip ts : String)
    (sr : SizeRange) (pr : PriceRange)
    (hsl : sanitizeLabel sr.label = sr.label)
    (hpl : sanitizeLabel pr.label = pr.label)
    (hfn : e.filename = some (createSafeFilename zip sr pr ts)) :
    charsContain (entryLine e).toList
      (zip ++ "_" ++ sr.label ++ "_" ++ pr.label).toList = true := by
  apply charsContain_of_decomp
    (("\x7b" ++ jsonStr "timestamp" ++ ":" ++ jsonStr e.timestamp ++
        jsonField "county" (jsonStr e.county) ++
        jsonField "sizeRange" (jsonStr e.sizeRange) ++
        jsonField "priceRange" (jsonStr e.priceRange) ++
        (match e.resultCount with
         | some n => jsonField "resultCount" (toString n)
         | none => "") ++
        jsonField "status" (jsonStr e.status) ++
        "," ++ jsonStr "filename" ++ ":" ++ "\"").toList)
    (("_" ++ ts ++ ".csv" ++ "\"" ++
        (match e.error with
         | some m => jsonField "error" (jsonStr m)
         | none => "") ++
        jsonField "url" (jsonStr e.url) ++ "\x7d\n").toList)
  simp only [entryLine, hfn, createSafeFilename, hsl, hpl, jsonField, jsonStr,
    strToList_append, List.append_assoc]

/-- C2 counterexample: `isAlreadyDownloaded` is a raw substring search, not
an exact-key-and-status check.  A ledger holding only a success entry for
the key (C, S, 500) — whose line embeds the filename `C_S_500_1.csv` —
makes the skip check return `true` for the different key (C, S, 50), for
which the ledger holds no entry at all, refuting the claimed equivalence. -/
theorem C2_counterexample :
    isAlreadyDownloaded
        (ledgerContent
          [{ timestamp := "t", county := "C", sizeRange := "S",
             priceRange := "500", resultCount := some 3, status := "success",
             filename := some "C_S_500_1.csv", error := none, url := "u" }])
        "C" ⟨"S", 0, 1, none⟩ ⟨"50", 0, none⟩ = true ∧
    ∀ en ∈ [({ timestamp := "t", county := "C", sizeRange := "S",
               priceRange := "500", resultCount := some 3, status := "success",
               filename := some "C_S_500_1.csv", error := none,
               url := "u" } : LedgerEntry)],
      ¬(en.county = "C" ∧ en.sizeRange = "S" ∧ en.priceRange = "50" ∧
        en.status = "success") :=
  ⟨by decide, by decide⟩

/-- C2 amended: `isAlreadyDownloaded` searches the ledger text for the raw
substring `` `${location}_${sizeLabel}_${priceLabel}` `` and inspects no
status field; a success entry for the exact key still guarantees a skip,
because its line embeds the `createSafeFilename` filename, which (for
sanitization-invariant labels) starts with the search key — but substring
collisions between keys can cause spurious skips. -/
theorem C2_amended_skip (entries : List LedgerEntry) (zip ts : String)
    (sr : SizeRange) (pr : PriceRange) (e : LedgerEntry)
    (hsl : sanitizeLabel sr.label = sr.label)
    (hpl : sanitizeLabel pr.label = pr.label)
    (he : e ∈ entries) (_hst : e.status = "success")
    (hfn : e.filename = some (createSafeFilename zip sr pr ts)) :
    isAlreadyDownloaded (ledgerContent entries) zip sr pr = true := by
  simp only [isAlreadyDownloaded]
  induction entries with
  | nil => cases he
  | cons a rest ih =>
      rcases List.mem_cons.mp he with rfl | h
      · show charsContain (entryLine e ++ ledgerContent rest).toList _ = true
        rw [strToList_append]
        exact charsContain_append_left _ (key_in_entryLine e zip ts sr pr hsl hpl hfn)
      · show charsContain (entryLine a ++ ledgerContent rest).toList _ = true
        rw [strToList_append]
        exact charsContain_append_right _ (ih h)

/-- Witness for C2 amended: a prior success entry for the key
(C, 0-0.25, 50k) makes the skip check fire on re-run. -/
theorem C2_amended_skip_witness :
    isAlreadyDownloaded
        (ledgerContent
          [{ timestamp := "t", county := "C",
             sizeRange := "0-0.25", priceRange := "50k", resultCount := some 7,
             status := "success",
             filename := some (createSafeFilename "C" ⟨"0-0.25", 0, 0.25, none⟩
               ⟨"50k", 0, some 50000⟩ "99"),
             error := none, url := "u" }])
        "C" ⟨"0-0.25", 0, 0.25, none⟩ ⟨"50k", 0, some 50000⟩ = true :=
  C2_amended_skip _ "C" "99" ⟨"0-0.25", 0, 0.25, none⟩ ⟨"50k", 0, some 50000⟩ _
    (by decide) (by decide) (List.mem_singleton.mpr rfl) rfl rfl

/-- C10: the market matrix has a statistics bucket exactly for the
(zipCode, sizeCategory) pairs occurring among the records; a bucket's count
is the number of records with that pair, its statistics satisfy
min ≤ q1 ≤ median ≤ q3 ≤ max, and min/max are the smallest/largest
price-per-acre values in the bucket. -/
theorem C10_market_matrix (records : List SoldRecord) (zip cat : String) :
    ((marketStats records zip cat).isSome ↔
      ∃ r ∈ records, recordMatches zip cat r = true) ∧
    (∀ s : BucketStats, marketStats records zip cat = some s →
      s.count = (records.filter (recordMatches zip cat)).length ∧
      s.min ≤ s.q1 ∧ s.q1 ≤ s.median ∧ s.median ≤ s.q3 ∧ s.q3 ≤ s.max ∧
      s.min ∈ bucketPrices records zip cat ∧
      s.max ∈ bucketPrices records zip cat ∧
      ∀ v ∈ bucketPrices records zip cat, s.min ≤ v ∧ v ≤ s.max) := by
  have hperm := sortAsc_perm (bucketPrices records zip cat)
  have hs := sortAsc_sorted (bucketPrices records zip cat)
  have hlen : (sortAsc (bucketPrices records zip cat)).length =
      (records.filter (recordMatches zip cat)).length := by
    rw [hperm.length_eq, bucketPrices, List.length_map]
  constructor
  · simp only [marketStats]
    by_cases h : (sortAsc (bucketPrices records zip cat)).length = 0
    · rw [if_pos h]
      simp only [Option.isSome_none, Bool.false_eq_true, false_iff]
      rintro ⟨r, hr, hm⟩
      rw [hlen] at h
      have : r ∈ records.filter (recordMatches zip cat) :=
        List.mem_filter.mpr ⟨hr, hm⟩
      rw [List.length_eq_zero.mp h] at this
      cases this
    · rw [if_neg h]
      simp only [Option.isSome_some, true_iff]
      rw [hlen] at h
      obtain ⟨r, hr⟩ :=
        List.exists_mem_of_ne_nil (records.filter (recordMatches zip cat))
          (by
            intro hnil
            rw [hnil] at h
            exact h rfl)
      exact ⟨r, (List.mem_filter.mp hr).1, (List.mem_filter.mp hr).2⟩
  · intro s hsome
    simp only [marketStats] at hsome
    by_cases h : (sortAsc (bucketPrices records zip cat)).length = 0
    · rw [if_pos h] at hsome
      cases hsome
    · rw [if_neg h] at hsome
      obtain rfl := (Option.some_inj.mp hsome).symm
      have hl : 1 ≤ (sortAsc (bucketPrices records zip cat)).length :=
        Nat.one_le_iff_ne_zero.mpr h
      refine ⟨hlen, ?_, ?_, ?_, ?_, ?_, ?_, ?_⟩
      · exact percentile_ge_head hs hl (by norm_num) (by norm_num)
      · rw [median_eq_p50 _ hl]
        exact percentile_mono hs hl (by norm_num) (by norm_num) (by norm_num)
      · rw [median_eq_p50 _ hl]
        exact percentile_mono hs hl (by norm_num) (by norm_num) (by norm_num)
      · exact percentile_le_last hs hl (by norm_num) (by norm_num)
      · exact sortAsc_mem.mp (getD_mem (by omega))
      · exact sortAsc_mem.mp (getD_mem (by omega))
      · intro v hv
        obtain ⟨⟨k, hk⟩, hget⟩ := List.mem_iff_get.mp (sortAsc_mem.mpr hv)
        have hveq : (sortAsc (bucketPrices records zip cat)).getD k 0 = v := by
          rw [List.getD_eq_getElem?_getD, List.getElem?_eq_getElem hk]
          simpa using hget
        constructor
        · rw [← hveq]
          exact getD_mono hs (Nat.zero_le _) hk
        · rw [← hveq]
          exact getD_mono hs (by omega) (by omega)

/-- Witness for C10 on a two-record bucket: the bucket exists, has count 2
and statistics 100 ≤ 125 ≤ 150 ≤ 175 ≤ 200. -/
theorem C10_market_matrix_witness :
    marketStats
        [{ address := "", zipCode := "32541", price := 100,
           lotSizeSqft := 43560, acres := 1, pricePerAcre := 100,
           sizeCategory := "0.5-1", saleDate := "" },
         { address := "", zipCode := "32541", price := 200,
           lotSizeSqft := 43560, acres := 1, pricePerAcre := 200,
           sizeCategory := "0.5-1", saleDate := "" }]
        "32541" "0.5-1" =
      some { count := 2, median := 150, mean := 150, min := 100, max := 200,
             q1 := 125, q3 := 175 } ∧
    (100 : ℚ) ≤ 125 ∧ (125 : ℚ) ≤ 150 ∧ (150 : ℚ) ≤ 175 ∧ (175 : ℚ) ≤ 200 := by
  have hsort : sortAsc (bucketPrices
      [{ address := "", zipCode := "32541", price := 100,
         lotSizeSqft := 43560, acres := 1, pricePerAcre := 100,
         sizeCategory := "0.5-1", saleDate := "" },
       { address := "", zipCode := "32541", price := 200,
         lotSizeSqft := 43560, acres := 1, pricePerAcre := 200,
         sizeCategory := "0.5-1", saleDate := "" }] "32541" "0.5-1") =
      [100, 200] := by
    norm_num [sortAsc, bucketPrices, recordMatches, List.insertionSort,
      List.orderedInsert]
  have hq1 : calculatePercentile [(100 : ℚ), 200] 25 = 125 := by
    have hc : ⌈(1 / 4 : ℚ)⌉ = 1 := Int.ceil_eq_iff.mpr (by norm_num)
    unfold calculatePercentile
    norm_num [hc, Int.toNat]
  have hq3 : calculatePercentile [(100 : ℚ), 200] 75 = 175 := by
    have hc : ⌈(3 / 4 : ℚ)⌉ = 1 := Int.ceil_eq_iff.mpr (by norm_num)
    unfold calculatePercentile
    norm_num [hc, Int.toNat]
  have hmed : calculateMedian [(100 : ℚ), 200] = 150 := by
    norm_num [calculateMedian]
  have hmean : toFixedQ 2 (150 : ℚ) = 150 := by
    unfold toFixedQ
    norm_num
  have hms : marketStats
      [{ address := "", zipCode := "32541", price := 100,
         lotSizeSqft := 43560, acres := 1, pricePerAcre := 100,
         sizeCategory := "0.5-1", saleDate := "" },
       { address := "", zipCode := "32541", price := 200,
         lotSizeSqft := 43560, acres := 1, pricePerAcre := 200,
         sizeCategory := "0.5-1", saleDate := "" }] "32541" "0.5-1" =
      some { count := 2, median := 150, mean := 150, min := 100, max := 200,
             q1 := 125, q3 := 175 } := by
    simp only [marketStats, hsort]
    norm_num [hq1, hq3, hmed, hmean]
  have h := (C10_market_matrix
      [{ address := "", zipCode := "32541", price := 100,
         lotSizeSqft := 43560, acres := 1, pricePerAcre := 100,
         sizeCategory := "0.5-1", saleDate := "" },
       { address := "", zipCode := "32541", price := 200,
         lotSizeSqft := 43560, acres := 1, pricePerAcre := 200,
         sizeCategory := "0.5-1", saleDate := "" }] "32541" "0.5-1").2 _ hms
  exact ⟨hms, h.2.1, h.2.2.1, h.2.2.2.1, h.2.2.2.2.1⟩

end RedfinPipeline
